import Mathlib

/-!
Verification of the recasa photo-pipeline backend.

Shallow embedding of `backend/app/workers/queues.py`,
`backend/app/workers/worker.py`, `backend/app/workers/pipeline.py`,
`backend/app/api/scan.py`, `backend/app/api/pipeline.py`,
`backend/app/services/scanner.py`, `backend/app/services/event_detector.py`
and `backend/app/services/face_detector.py`.

Machine floats of the source (GPS degrees, time gaps in hours) are modelled
as rationals; wall-clock datetimes as integer seconds.  Mutable Python sets
are modelled as lists with insert-if-absent / remove semantics.
-/

namespace Recasa

/-! ## Stage set (`queues.py`, class QueueType) -/

/-- The stage enum as defined in `workers/queues.py`.  There is no CLIP
member: the nine members are exactly those of the Python `QueueType`. -/
inductive QueueType where
  | DISCOVERY
  | EXIF
  | GEOCODING
  | THUMBNAILS
  | MOTION_PHOTOS
  | HASHING
  | FACES
  | CAPTIONING
  | EVENTS
  deriving DecidableEq, Repr

/-- All members of the enum, in declaration order. -/
def allQueueTypes : List QueueType :=
  [.DISCOVERY, .EXIF, .GEOCODING, .THUMBNAILS, .MOTION_PHOTOS,
   .HASHING, .FACES, .CAPTIONING, .EVENTS]

/-- Python attribute lookup `QueueType.<name>`: returns the member for a
declared name, and fails (AttributeError) for any other name. -/
def QueueType.ofName : String → Option QueueType
  | "DISCOVERY" => some .DISCOVERY
  | "EXIF" => some .EXIF
  | "GEOCODING" => some .GEOCODING
  | "THUMBNAILS" => some .THUMBNAILS
  | "MOTION_PHOTOS" => some .MOTION_PHOTOS
  | "HASHING" => some .HASHING
  | "FACES" => some .FACES
  | "CAPTIONING" => some .CAPTIONING
  | "EVENTS" => some .EVENTS
  | _ => none

/-- Resolve a list of stage names; the first unresolvable name raises
(models Python's AttributeError on `QueueType.<name>`). -/
def resolveStages : List String → Except String (List QueueType)
  | [] => .ok []
  | n :: rest =>
    match QueueType.ofName n with
    | none => .error n
    | some qt =>
      match resolveStages rest with
      | .error e => .error e
      | .ok qts => .ok (qt :: qts)

/-! ## Worker dispatch (`worker.py`, Worker.process_item) -/

/-- The stage names referenced when `Worker.process_item` builds its
`handlers` dict (worker.py lines 248-259), in source order.  The dict
literal is evaluated on every call, so every name is looked up on
`QueueType` each time. -/
def handlerStageNames : List String :=
  ["DISCOVERY", "EXIF", "GEOCODING", "THUMBNAILS", "MOTION_PHOTOS",
   "HASHING", "CLIP", "FACES", "CAPTIONING", "EVENTS"]

/-- `Worker.process_item`: builds the handlers dict (resolving every stage
name), then dispatches on the worker's queue type.  Returns `ok true` when
a handler exists for the stage, `ok false` otherwise (`return False`), and
an error when building the dict raises. -/
def processItem (queueType : QueueType) : Except String Bool :=
  match resolveStages handlerStageNames with
  | .error e => .error e
  | .ok stages => .ok (stages.contains queueType)

/-! ## Batch coordinator (`worker.py`, EventDetectionWorker) -/

/-- The stage names listed in `EventDetectionWorker._upstream_busy`
(worker.py lines 324-329), in source order. -/
def upstreamStageNames : List String :=
  ["DISCOVERY", "EXIF", "GEOCODING", "THUMBNAILS", "MOTION_PHOTOS",
   "HASHING", "CLIP", "FACES", "CAPTIONING"]

/-- `EventDetectionWorker._upstream_busy`: resolves each listed stage name
on `QueueType` and checks `pending > 0 or processing > 0` for the resolved
queues.  Raises on the first unresolvable name. -/
def upstreamBusy (pendingOf processingOf : QueueType → Int) : Except String Bool :=
  match resolveStages upstreamStageNames with
  | .error e => .error e
  | .ok qts => .ok (qts.any (fun qt => 0 < pendingOf qt || 0 < processingOf qt))

/-- Outcome of one iteration of `EventDetectionWorker.run` (after the
pending-wait and the debounce): how many EVENTS keys were drained, which
batch operations ran (in order), and the exception caught by the
`except Exception` handler of the loop, if any. -/
structure EventIterOutcome where
  drained : Nat
  batchOpsRun : List String
  caught : Option String
  deriving DecidableEq, Repr

/-- One iteration of `EventDetectionWorker.run` (worker.py lines 350-395).
The events channel is drained and every drained key marked completed; if
nothing was drained the loop continues; otherwise the quiescence wait
evaluates `_upstream_busy()` — if that raises, the loop's exception handler
catches and no batch operation runs; if it returns, the coordinator (after
the bounded wait, elided here as pure time) runs face clustering then event
detection, in that order. -/
def eventWorkerIteration (eventsChannel : List String)
    (pendingOf processingOf : QueueType → Int) : EventIterOutcome :=
  let drained := eventsChannel.length
  if drained = 0 then
    { drained := 0, batchOpsRun := [], caught := none }
  else
    match upstreamBusy pendingOf processingOf with
    | .error e => { drained := drained, batchOpsRun := [], caught := some e }
    | .ok _ =>
      { drained := drained,
        batchOpsRun := ["cluster_faces", "detect_events"], caught := none }

/-! ## Stage queue (`queues.py`, class ProcessingQueue)

Python `set` objects are modelled as duplicate-free lists with
insert-if-absent (`set.add`) and remove (`set.discard`) operations; the
`asyncio.Queue` channel is a FIFO list (append at the tail, take from the
head). -/

/-- `set.add`: insert if absent. -/
def setAdd (s : List String) (x : String) : List String :=
  if x ∈ s then s else x :: s

/-- `set.discard`: remove all occurrences (a set holds at most one). -/
def setDiscard (s : List String) (x : String) : List String :=
  s.filter (fun y => y ≠ x)

/-- The `QueueStats` dataclass of `queues.py`.  `lastProcessedAt` is in
integer seconds.  The `pending` and `processing` gauges are `Int`: the
source decrements them without a lower bound. -/
structure QueueStats where
  pending : Int := 0
  processing : Int := 0
  completedTotal : Nat := 0
  skippedTotal : Nat := 0
  failedTotal : Nat := 0
  lastProcessedAt : Option Int := none
  lastFileHash : Option String := none
  currentFileHash : Option String := none
  currentFilePath : Option String := none
  deriving DecidableEq, Repr

/-- The `ProcessingQueue` state: bounded FIFO channel, the two dedup sets
and the stats record. -/
structure ProcessingQueue where
  maxSize : Nat := 1000
  channel : List String := []
  processing : List String := []
  processed : List String := []
  stats : QueueStats := {}
  deriving DecidableEq, Repr

/-- The four distinguishable outcomes of `ProcessingQueue.put` (the source
returns a bare `False` for the last three; they are told apart here by
which branch fired). -/
inductive PutResult where
  | accepted
  | duplicateProcessed
  | duplicateInFlight
  | full
  deriving DecidableEq, Repr

/-- `ProcessingQueue.put` (queues.py lines 62-78): reject keys already in
`processed` (counting a skip), then keys in `processing` or a full channel
(state unchanged); otherwise enqueue and bump `pending`.  Sequentially the
5-second `wait_for` never expires once the size check has passed, so the
timeout branch is unreachable here. -/
def ProcessingQueue.put (q : ProcessingQueue) (fileHash : String) :
    ProcessingQueue × PutResult :=
  if fileHash ∈ q.processed then
    ({ q with stats := { q.stats with skippedTotal := q.stats.skippedTotal + 1 } },
     .duplicateProcessed)
  else if fileHash ∈ q.processing then
    (q, .duplicateInFlight)
  else if q.maxSize ≤ q.channel.length then
    (q, .full)
  else
    ({ q with channel := q.channel ++ [fileHash],
              stats := { q.stats with pending := q.stats.pending + 1 } },
     .accepted)

/-- `ProcessingQueue.get` (queues.py lines 80-87): blocks on an empty
channel (modelled as `none`); otherwise removes the head, decrements
`pending`, increments `processing` and adds the key to the processing
set. -/
def ProcessingQueue.get (q : ProcessingQueue) : Option (String × ProcessingQueue) :=
  match q.channel with
  | [] => none
  | fileHash :: rest =>
    some (fileHash,
      { q with channel := rest,
               processing := setAdd q.processing fileHash,
               stats := { q.stats with
                            pending := q.stats.pending - 1,
                            processing := q.stats.processing + 1 } })

/-- `ProcessingQueue.mark_processing`. -/
def ProcessingQueue.markProcessing (q : ProcessingQueue) (fileHash : String)
    (filePath : Option String) : ProcessingQueue :=
  { q with stats := { q.stats with currentFileHash := some fileHash,
                                   currentFilePath := filePath } }

/-- Clear `current_file_hash`/`current_file_path` when they refer to the
finished key (shared tail of `mark_completed` and `mark_failed`). -/
def clearCurrentIf (s : QueueStats) (fileHash : String) : QueueStats :=
  if s.currentFileHash = some fileHash then
    { s with currentFileHash := none, currentFilePath := none }
  else s

/-- `ProcessingQueue.mark_completed` (queues.py lines 95-106). -/
def ProcessingQueue.markCompleted (q : ProcessingQueue) (fileHash : String)
    (now : Int) : ProcessingQueue :=
  { q with processing := setDiscard q.processing fileHash,
           processed := setAdd q.processed fileHash,
           stats := clearCurrentIf
             { q.stats with processing := q.stats.processing - 1,
                            completedTotal := q.stats.completedTotal + 1,
                            lastProcessedAt := some now,
                            lastFileHash := some fileHash } fileHash }

/-- `ProcessingQueue.mark_failed` (queues.py lines 108-117). -/
def ProcessingQueue.markFailed (q : ProcessingQueue) (fileHash : String) :
    ProcessingQueue :=
  { q with processing := setDiscard q.processing fileHash,
           processed := setAdd q.processed fileHash,
           stats := clearCurrentIf
             { q.stats with processing := q.stats.processing - 1,
                            failedTotal := q.stats.failedTotal + 1 } fileHash }

/-! ## Clear and reset operations (`api/scan.py`, `api/pipeline.py`) -/

/-- The per-queue part of `clear_index` (scan.py lines 66-74): clears both
dedup sets and zeroes the five numeric counters.  The channel and the
last/current telemetry fields are not touched. -/
def clearIndexQueue (q : ProcessingQueue) : ProcessingQueue :=
  { q with processed := [],
           processing := [],
           stats := { q.stats with completedTotal := 0, skippedTotal := 0,
                                   failedTotal := 0, pending := 0,
                                   processing := 0 } }

/-- The per-queue part of `reset_pipeline` (api/pipeline.py lines 102-109):
clears only the processed set. -/
def resetQueue (q : ProcessingQueue) : ProcessingQueue :=
  { q with processed := [] }

/-! ## Pipeline snapshot (`queues.py`, Pipeline.get_pipeline_stats) -/

/-- The pipeline-level state read and written by `get_pipeline_stats`:
per-stage stats, the discovered counter and the two timestamps. -/
structure PipelineState where
  queueStats : QueueType → QueueStats
  isRunning : Bool
  startTime : Option Int
  completedTime : Option Int
  totalDiscovered : Nat

/-- `is_idle` of `get_pipeline_stats` (queues.py lines 195-198): every
queue reports zero pending and zero processing, where the reported gauges
are clamped with `max(_, 0)`. -/
def pipelineIsIdle (s : PipelineState) : Bool :=
  allQueueTypes.all (fun qt =>
    max (s.queueStats qt).pending 0 = 0 ∧ max (s.queueStats qt).processing 0 = 0)

/-- The fields of the snapshot dict that the claims are about. -/
structure PipelineStatsOut where
  status : String
  totalFilesDiscovered : Nat
  completedAt : Option Int
  uptimeSeconds : Int
  deriving DecidableEq, Repr

/-- `Pipeline.get_pipeline_stats` (queues.py lines 190-239): updates
`_completed_time` (set when idle with work discovered, cleared otherwise)
and computes the status and the uptime, frozen at
`completed_time - start_time` once completed. -/
def getPipelineStats (s : PipelineState) (now : Int) :
    PipelineState × PipelineStatsOut :=
  let isIdle := pipelineIsIdle s
  let newCompleted : Option Int :=
    if isIdle ∧ 0 < s.totalDiscovered then
      match s.completedTime with
      | some c => some c
      | none => some now
    else none
  let status :=
    if s.totalDiscovered = 0 then "idle"
    else if isIdle then "done" else "processing"
  let uptime : Int :=
    match s.startTime with
    | none => 0
    | some st =>
      match newCompleted with
      | some c => c - st
      | none => now - st
  ({ s with completedTime := newCompleted },
   { status := status, totalFilesDiscovered := s.totalDiscovered,
     completedAt := newCompleted, uptimeSeconds := uptime })

/-! ## Directory scan (`services/scanner.py`, scan_directory) and
cancellation (`api/scan.py`, cancel_scan) -/

/-- Result of the batch loop of `scan_directory` (scanner.py lines
119-164): which files were indexed, which keys were fed to
`on_file_discovered`, whether the loop stopped on the cancel check, and
whether the cleanup pass ran (it is skipped when cancelled). -/
structure ScanOutcome where
  indexed : List String
  admitted : List String
  cancelled : Bool
  cleanupRan : Bool
  deriving DecidableEq, Repr

/-- The batch loop of `scan_directory`: before each batch, evaluate
`if cancel_check and cancel_check()` (a `None` check never cancels); then
index the batch and, only when `on_file_discovered` was supplied, feed the
batch's keys that still need pipeline processing. -/
def scanBatchesGo (cancelCheck : Option (Nat → Bool)) (admitEnabled : Bool)
    (needsProcessing : String → Bool) (i : Nat) :
    List (List String) → List String × List String × Bool
  | [] => ([], [], false)
  | b :: rest =>
    if (match cancelCheck with | some f => f i | none => false) then
      ([], [], true)
    else
      let r := scanBatchesGo cancelCheck admitEnabled needsProcessing (i + 1) rest
      (b ++ r.1, (if admitEnabled then b.filter needsProcessing else []) ++ r.2.1,
       r.2.2)

/-- `scan_directory(progress_callback, cancel_check, on_file_discovered)`
over a pre-batched file list: runs the batch loop and then the cleanup
pass unless cancelled. -/
def scanDirectory (cancelCheck : Option (Nat → Bool)) (admitEnabled : Bool)
    (needsProcessing : String → Bool) (batches : List (List String)) :
    ScanOutcome :=
  let r := scanBatchesGo cancelCheck admitEnabled needsProcessing 0 batches
  { indexed := r.1, admitted := r.2.1, cancelled := r.2.2,
    cleanupRan := !r.2.2 }

/-- The scan invocation made by `run_initial_scan` (workers/pipeline.py
line 112): `scan_directory(progress_callback=progress_callback)` — no
`cancel_check` and no `on_file_discovered` are passed. -/
def runInitialScanWalk (needsProcessing : String → Bool)
    (batches : List (List String)) : ScanOutcome :=
  scanDirectory none false needsProcessing batches

/-- `cancel_scan` (api/scan.py lines 33-40): with no scan running it
answers `not_scanning`; otherwise it sets `scan_state.cancel_requested`
(an attribute nothing in the code base ever reads) and answers
`cancel_requested`.  Returns (flag written, status). -/
def cancelScanEndpoint (isScanning : Bool) : Bool × String :=
  if isScanning then (true, "cancel_requested") else (false, "not_scanning")

/-! ## Startup processing (`workers/pipeline.py`, run_initial_scan) -/

/-- One syntactic step of `run_initial_scan`'s phase sequence. -/
inductive ScanAction where
  /-- the `scan_directory` call; the booleans record whether
  `cancel_check` and `on_file_discovered` are passed -/
  | scanDir (passesCancelCheck passesOnFileDiscovered : Bool)
  /-- `while await process_pending_X(batch_size=n): ...` -/
  | phaseLoop (name : String) (batchSize : Nat)
  /-- a single `await process_pending_X(batch_size=n)` -/
  | phaseOnce (name : String) (batchSize : Nat)
  /-- a whole-corpus batch operation -/
  | batchOp (name : String)
  /-- an `asyncio.sleep` between batches -/
  | sleepMs (ms : Nat)
  deriving DecidableEq, Repr

/-- The sequence of steps of `run_initial_scan` (workers/pipeline.py lines
97-180), in source order: the directory walk (with neither `cancel_check`
nor `on_file_discovered`), then the per-stage pending loops with their
literal batch sizes, interleaved with the whole-corpus operations.  No
sleep occurs anywhere in the body. -/
def runInitialScanActions : List ScanAction :=
  [.scanDir false false,
   .phaseLoop "exif" 100,
   .phaseOnce "geocoding" 100,
   .phaseLoop "thumbnails" 50,
   .phaseOnce "motion_photos" 50,
   .phaseLoop "hashing" 100,
   .batchOp "find_duplicates",
   .phaseLoop "clip" 20,
   .phaseLoop "faces" 20,
   .batchOp "cluster_faces",
   .phaseLoop "captioning" 10,
   .batchOp "detect_events"]

/-- One `process_pending_X(batch_size)` call: select up to `batchSize`
store rows whose stage flag is unset, attempt each, and return the number
processed successfully together with the rows still pending.  A row whose
enricher fails or no-ops keeps its flag unset and is selected again by the
next call; `succeeds` is the per-row outcome of the stage's enricher.
Returns (processed count, rows still missing the flag). -/
def processPendingCall (batchSize : Nat) (succeeds : String → Bool)
    (pending : List String) : Nat × List String :=
  let batch := pending.take batchSize
  ((batch.filter succeeds).length,
   batch.filter (fun r => !(succeeds r)) ++ pending.drop batchSize)

/-- The `while await process_pending_X(batch_size): ...` loop: repeat the
batch call while it reports a nonzero processed count; a zero-success
batch (for example, the captioning backend refusing every item) ends the
loop with rows still pending.  `fuel` bounds the recursion (each
productive call strictly shrinks the pending list). -/
def processPendingLoop (batchSize : Nat) (succeeds : String → Bool) :
    Nat → List String → List String
  | 0, pending => pending
  | fuel + 1, pending =>
    if (processPendingCall batchSize succeeds pending).1 = 0 then pending
    else
      processPendingLoop batchSize succeeds fuel
        (processPendingCall batchSize succeeds pending).2

/-- The rows still missing their flag after a full
`while process_pending_X(batch_size)` loop over the given pending rows. -/
def processPendingAll (batchSize : Nat) (succeeds : String → Bool)
    (pending : List String) : List String :=
  processPendingLoop batchSize succeeds pending.length pending

/-! ## Event detection (`services/event_detector.py`) -/

/-- Module constant `EVENT_TIME_GAP_HOURS`. -/
def EVENT_TIME_GAP_HOURS : ℚ := 4

/-- Module constant `MIN_PHOTOS_PER_EVENT`. -/
def MIN_PHOTOS_PER_EVENT : Nat := 3

/-- Module constant `LOCATION_PROXIMITY_DEGREES`. -/
def LOCATION_PROXIMITY_DEGREES : ℚ := 0.05

/-- The columns of a `Photo` row read by `detect_events`.  `dateTaken` is
in integer seconds; GPS degrees are rationals.  The city/country columns
feed only the synthesized event name and are elided. -/
structure PhotoRow where
  fileHash : String
  dateTaken : Option Int := none
  gpsLat : Option ℚ := none
  gpsLon : Option ℚ := none
  deriving DecidableEq, Repr

/-- The sort key `Photo.date_taken`; applied only to rows that passed the
`date_taken IS NOT NULL` filter. -/
def dateKey (p : PhotoRow) : Int := p.dateTaken.getD 0

/-- The `ORDER BY date_taken ASC` ordering. -/
def dateLE (p q : PhotoRow) : Prop := dateKey p ≤ dateKey q

instance : DecidableRel dateLE := fun p q => Int.decLe (dateKey p) (dateKey q)

instance : IsTotal PhotoRow dateLE :=
  ⟨fun a b => Int.le_total (dateKey a) (dateKey b)⟩

instance : IsTrans PhotoRow dateLE :=
  ⟨fun _ _ _ hab hbc => le_trans hab hbc⟩

/-- The query of `detect_events`: all photos with a timestamp, in
ascending `date_taken` order. -/
def photosWithDates (store : List PhotoRow) : List PhotoRow :=
  List.insertionSort dateLE (store.filter (fun p => p.dateTaken.isSome))

/-- `(curr.date_taken - prev.date_taken).total_seconds() / 3600`. -/
def gapHours (prev curr : PhotoRow) : ℚ :=
  ((dateKey curr - dateKey prev : Int) : ℚ) / 3600

/-- Phase 1 of `detect_events` (lines 53-70): walk consecutive pairs; a
gap above `EVENT_TIME_GAP_HOURS` closes the current run (kept only when it
has at least `MIN_PHOTOS_PER_EVENT` members) and starts a new one. -/
def splitByTimeGo (prev : PhotoRow) (current : List PhotoRow) :
    List PhotoRow → List (List PhotoRow)
  | [] =>
    if MIN_PHOTOS_PER_EVENT ≤ current.length then [current] else []
  | curr :: rest =>
    if EVENT_TIME_GAP_HOURS < gapHours prev curr then
      (if MIN_PHOTOS_PER_EVENT ≤ current.length then [current] else []) ++
        splitByTimeGo curr [curr] rest
    else
      splitByTimeGo curr (current ++ [curr]) rest

/-- Phase 1 entry point: `current_cluster = [photos[0]]` then the pair
walk. -/
def splitByTime : List PhotoRow → List (List PhotoRow)
  | [] => []
  | p :: rest => splitByTimeGo p [p] rest

/-- Does the row carry both GPS coordinates? -/
def hasGps (p : PhotoRow) : Bool := p.gpsLat.isSome && p.gpsLon.isSome

/-- The split condition of `_split_by_location` (lines 148-158): both
consecutive rows carry GPS and differ by more than
`LOCATION_PROXIMITY_DEGREES` in latitude or longitude. -/
def locSplit (prev curr : PhotoRow) : Bool :=
  match prev.gpsLat, prev.gpsLon, curr.gpsLat, curr.gpsLon with
  | some plat, some plon, some clat, some clon =>
    decide (LOCATION_PROXIMITY_DEGREES < |clat - plat|) ||
      decide (LOCATION_PROXIMITY_DEGREES < |clon - plon|)
  | _, _, _, _ => false

/-- The pair walk of `_split_by_location`. -/
def splitByLocationGo (prev : PhotoRow) (current : List PhotoRow) :
    List PhotoRow → List (List PhotoRow)
  | [] => [current]
  | curr :: rest =>
    if locSplit prev curr then
      current :: splitByLocationGo curr [curr] rest
    else
      splitByLocationGo curr (current ++ [curr]) rest

/-- `_split_by_location` (lines 135-166): empty input yields no clusters;
a run with fewer than two GPS-carrying rows is kept whole; otherwise the
pair walk splits at location jumps. -/
def splitByLocation : List PhotoRow → List (List PhotoRow)
  | [] => []
  | p :: rest =>
    if ((p :: rest).filter hasGps).length < 2 then [p :: rest]
    else splitByLocationGo p [p] rest

/-- Phases 1 and 2 of `detect_events`: time runs, sub-split by location,
keeping only sub-runs of at least `MIN_PHOTOS_PER_EVENT` members.  Fewer
than `MIN_PHOTOS_PER_EVENT` dated photos yield nothing. -/
def finalClusters (store : List PhotoRow) : List (List PhotoRow) :=
  let photos := photosWithDates store
  if photos.length < MIN_PHOTOS_PER_EVENT then []
  else
    (splitByTime photos).flatMap
      (fun c => (splitByLocation c).filter
        (fun sc => MIN_PHOTOS_PER_EVENT ≤ sc.length))

/-- An `Event` row as written by `detect_events` (name and location
synthesis elided — no claim mentions them). -/
structure EventRow where
  eventId : Nat
  startDate : Int
  endDate : Int
  photoCount : Nat
  deriving DecidableEq, Repr

/-- The `Event` and `EventPhoto` tables. -/
structure EventsDB where
  events : List EventRow
  eventPhotos : List (Nat × String)
  deriving DecidableEq, Repr

/-- `min(dates)` over a nonempty list (0 on the empty list, which the
source never reaches: clusters have at least three dated members). -/
def listMin : List Int → Int
  | [] => 0
  | x :: xs => xs.foldl min x

/-- `max(dates)`. -/
def listMax : List Int → Int
  | [] => 0
  | x :: xs => xs.foldl max x

/-- Phase 3 of `detect_events`: build one `Event` row per cluster (start =
min date, end = max date, photo_count = member count) and one `EventPhoto`
row per member, with sequential ids from `nextId`. -/
def buildEvents (nextId : Nat) : List (List PhotoRow) → EventsDB
  | [] => { events := [], eventPhotos := [] }
  | c :: rest =>
    let e : EventRow :=
      { eventId := nextId, startDate := listMin (c.map dateKey),
        endDate := listMax (c.map dateKey), photoCount := c.length }
    let r := buildEvents (nextId + 1) rest
    { events := e :: r.events,
      eventPhotos := c.map (fun p => (nextId, p.fileHash)) ++ r.eventPhotos }

/-- `detect_events` on the store state.  With fewer than
`MIN_PHOTOS_PER_EVENT` dated photos the function returns 0 before ever
opening the write transaction (event_detector.py lines 50-51), so the
prior `Event`/`EventPhoto` rows survive untouched.  Otherwise, in one
transaction, every `EventPhoto` and `Event` row is deleted and the rows
built from the new clusters are inserted, discarding the prior contents
`db` wholesale. -/
def detectEventsDB (store : List PhotoRow) (db : EventsDB) : EventsDB :=
  if (photosWithDates store).length < MIN_PHOTOS_PER_EVENT then db
  else buildEvents 1 (finalClusters store)

/-- The return value of `detect_events`: the number of events created. -/
def detectEventsCount (store : List PhotoRow) : Nat :=
  (finalClusters store).length

/-! ## Face clustering (`services/face_detector.py`, cluster_faces)

The DBSCAN labelling itself comes from scikit-learn and is external to
this repository; it enters the model as the `labels` array.  Everything
downstream of the labels — the noise filter, the cluster map, the
person-assignment policy — is code of `cluster_faces` and is embedded
here. -/

/-- Module constant `CLUSTER_DISTANCE_THRESHOLD`. -/
def CLUSTER_DISTANCE_THRESHOLD : ℚ := 0.4

/-- Module constant `CLUSTER_MIN_SAMPLES`. -/
def CLUSTER_MIN_SAMPLES : Nat := 2

/-- The keyword arguments `cluster_faces` passes to the `DBSCAN`
constructor (face_detector.py lines 236-240). -/
structure DBSCANParams where
  eps : ℚ
  minSamples : Nat
  metric : String
  deriving DecidableEq, Repr

/-- The `DBSCAN(eps=CLUSTER_DISTANCE_THRESHOLD,
min_samples=CLUSTER_MIN_SAMPLES, metric="cosine")` call. -/
def clusterFacesDBSCANParams : DBSCANParams :=
  { eps := CLUSTER_DISTANCE_THRESHOLD, minSamples := CLUSTER_MIN_SAMPLES,
    metric := "cosine" }

/-- A `Face` row as read by `cluster_faces`. -/
structure FaceRow where
  faceId : Nat
  fileHash : String
  personId : Option Nat := none
  deriving DecidableEq, Repr

/-- Append a face id to the entry of `label` in the insertion-ordered
cluster map (Python dict semantics). -/
def addToClusterMap : List (Int × List Nat) → Int → Nat → List (Int × List Nat)
  | [], label, fid => [(label, [fid])]
  | (l, fids) :: rest, label, fid =>
    if l = label then (l, fids ++ [fid]) :: rest
    else (l, fids) :: addToClusterMap rest label fid

/-- The `cluster_map` build of `cluster_faces` (lines 253-259): walk the
(face_id, label) pairs, skipping noise (`label == -1`), grouping the rest
by label in first-occurrence order. -/
def buildClusterMap (pairs : List (Nat × Int)) : List (Int × List Nat) :=
  pairs.foldl (fun m p => if p.2 = -1 then m else addToClusterMap m p.2 p.1) []

/-- All face ids appearing in some cluster of the map. -/
def clusteredIds (m : List (Int × List Nat)) : List Nat :=
  m.flatMap (fun e => e.2)

/-- `sum(1 for f in cluster_faces if f.person_id == pid)`. -/
def countPid (faces : List FaceRow) (pid : Nat) : Nat :=
  (faces.filter (fun f => f.personId = some pid)).length

/-- The distinct existing person ids among a cluster's member faces
(`set(f.person_id for f in cluster_faces if f.person_id is not None)`),
in first-occurrence order. -/
def existingPersonIds (faces : List FaceRow) : List Nat :=
  (faces.filterMap (fun f => f.personId)).dedup

/-- Python's `max(ids, key=count)`: scan, replacing the best only on a
strictly greater key, so the first maximal element wins. -/
def maxByCount (faces : List FaceRow) (best : Nat) : List Nat → Nat
  | [] => best
  | p :: rest =>
    maxByCount faces (if countPid faces best < countPid faces p then p else best)
      rest

/-- The per-cluster branch of `cluster_faces` (lines 272-292): when some
member face already has a person, reuse the existing person with the most
member faces (no new `Person` row); otherwise create a new person with the
next id.  Returns (assigned person id, whether a new person was
created). -/
def assignCluster (nextPid : Nat) (members : List FaceRow) : Nat × Bool :=
  match existingPersonIds members with
  | [] => (nextPid, true)
  | p :: rest => (maxByCount members p rest, false)

/-- `for face in cluster_faces: face.person_id = person.person_id` — set
the person of every member face of the cluster. -/
def applyCluster (faces : List FaceRow) (fids : List Nat) (pid : Nat) :
    List FaceRow :=
  faces.map (fun f =>
    if f.faceId ∈ fids then { f with personId := some pid } else f)

/-- The cluster loop of `cluster_faces` (lines 262-302): process clusters
in map order, assigning each to a person and counting new persons. -/
def runClusters (faces : List FaceRow) (nextPid : Nat) :
    List (Int × List Nat) → List FaceRow × Nat
  | [] => (faces, 0)
  | (_, fids) :: rest =>
    let members := faces.filter (fun f => f.faceId ∈ fids)
    let a := assignCluster nextPid members
    let faces2 := applyCluster faces fids a.1
    let r := runClusters faces2 (if a.2 then nextPid + 1 else nextPid) rest
    (r.1, (if a.2 then 1 else 0) + r.2)

/-- `cluster_faces` downstream of DBSCAN: fewer faces than
`CLUSTER_MIN_SAMPLES` is a no-op; otherwise zip the face ids with the
DBSCAN labels, build the cluster map and run the assignment loop.
Returns the updated face rows and the number of new persons. -/
def clusterFacesRun (faces : List FaceRow) (labels : List Int)
    (nextPid : Nat) : List FaceRow × Nat :=
  if faces.length < CLUSTER_MIN_SAMPLES then (faces, 0)
  else
    runClusters faces nextPid
      (buildClusterMap ((faces.map (fun f => f.faceId)).zip labels))

/-- Take the next key from the channel, keeping the queue unchanged when
the channel is empty (used to write concrete operation chains). -/
def takeNext (q : ProcessingQueue) : ProcessingQueue :=
  match q.get with
  | none => q
  | some x => x.2

/-- The queue state reached from a fresh queue by the legal operation
sequence: admit `a`, admit `a` again (still untaken), take, finish
completed, take again. -/
def c3ChainState : ProcessingQueue :=
  takeNext ((takeNext ((({} : ProcessingQueue).put "a").1.put "a").1).markCompleted "a" 0)

/-- Photo at 09:00 of the spec's time-gap scenario. -/
def burst1 : PhotoRow := { fileHash := "p1", dateTaken := some 32400 }

/-- Photo at 09:10. -/
def burst2 : PhotoRow := { fileHash := "p2", dateTaken := some 33000 }

/-- Photo at 09:20. -/
def burst3 : PhotoRow := { fileHash := "p3", dateTaken := some 33600 }

/-- Photo at 18:00. -/
def burst4 : PhotoRow := { fileHash := "p4", dateTaken := some 64800 }

/-- Photo at 18:10. -/
def burst5 : PhotoRow := { fileHash := "p5", dateTaken := some 65400 }

/-- Photo at 18:20. -/
def burst6 : PhotoRow := { fileHash := "p6", dateTaken := some 66000 }

/-- The six-photo burst of the spec's time-gap scenario: timestamps 09:00,
09:10, 09:20, 18:00, 18:10, 18:20 of one day, in seconds since midnight,
no GPS. -/
def sixBurstPhotos : List PhotoRow :=
  [burst1, burst2, burst3, burst4, burst5, burst6]

/-- A store holding only two dated photos — below
`MIN_PHOTOS_PER_EVENT`, so `detect_events` returns early on it. -/
def twoPhotoStore : List PhotoRow :=
  [{ fileHash := "q1", dateTaken := some 0 },
   { fileHash := "q2", dateTaken := some 600 }]

/-- Event and EventPhoto rows left over from an earlier detection run
(reachable by deleting photos after an event was detected and
rescanning). -/
def staleEventsDB : EventsDB :=
  { events := [{ eventId := 1, startDate := 0, endDate := 1200,
                 photoCount := 3 }],
    eventPhotos := [(1, "x1"), (1, "x2"), (1, "x3")] }

/-! ## Theorems -/

/-- The resolution of the worker's handler stage names always fails on
`CLIP`, which is not a member of `QueueType`. -/
theorem resolveStages_handlers : resolveStages handlerStageNames = .error "CLIP" := by
  rfl

/-- The resolution of the batch coordinator's upstream stage names always
fails on `CLIP`. -/
theorem resolveStages_upstream : resolveStages upstreamStageNames = .error "CLIP" := by
  rfl

/-- C1.  The claim asserts that the dispatch of `Worker.process_item` and
the upstream-busy check are defined over the closed nine-stage set with no
CLIP stage and evaluate without error.  In the code both reference
`QueueType.CLIP`, which does not exist, so for every stage of the set,
`process_item` fails with an attribute-lookup error on `CLIP` before ever
reaching a handler, and `_upstream_busy` fails in the same way. -/
theorem c1_process_item_attribute_error :
    (∀ qt : QueueType, processItem qt = .error "CLIP") ∧
    (∀ pendingOf processingOf : QueueType → Int,
      upstreamBusy pendingOf processingOf = .error "CLIP") ∧
    QueueType.ofName "CLIP" = none ∧
    "CLIP" ∈ handlerStageNames ∧ "CLIP" ∈ upstreamStageNames := by
  refine ⟨fun qt => ?_, fun p pr => ?_, rfl, by decide, by decide⟩
  · simp [processItem, resolveStages_handlers]
  · simp [upstreamBusy, resolveStages_upstream]

/-- C2.  The claim asserts that whenever the EVENTS queue becomes
non-empty the coordinator eventually runs face clustering then event
detection.  In the code, any iteration that drains at least one key then
evaluates `_upstream_busy()`, which raises an attribute-lookup error on
`QueueType.CLIP`; the loop's exception handler catches it, so neither
batch operation ever runs. -/
theorem c2_batch_ops_never_run :
    ∀ (eventsChannel : List String) (pendingOf processingOf : QueueType → Int),
      (eventWorkerIteration eventsChannel pendingOf processingOf).batchOpsRun = [] ∧
      (eventWorkerIteration eventsChannel pendingOf processingOf).caught =
        (if eventsChannel.length = 0 then none else some "CLIP") := by
  intro ch p pr
  by_cases h : ch.length = 0 <;>
    simp [eventWorkerIteration, h, upstreamBusy, resolveStages_upstream]

/-- C3 counterexample.  `put` never checks the channel itself, so a second
admit of the untaken key `a` is accepted and places `a` in the channel a
second time; continuing with take, finish-completed, take puts `a` into
`processing` and `processed` simultaneously, refuting the claimed mutual
exclusion on a reachable state. -/
theorem c3_channel_not_deduplicated :
    ((({} : ProcessingQueue).put "a").2 = .accepted ∧
      ((({} : ProcessingQueue).put "a").1.put "a").2 = .accepted ∧
      ((({} : ProcessingQueue).put "a").1.put "a").1.channel = ["a", "a"]) ∧
    "a" ∈ c3ChainState.processing ∧ "a" ∈ c3ChainState.processed := by
  decide

/-- C3 amended.  Admission rejects a key that is currently in `processing`
or in `processed` (so such keys never re-enter the channel), but it does
not deduplicate against the channel: any key outside both sets is accepted
whenever the channel has room, even when the key is already queued, and is
appended a second time. -/
theorem c3_admission_dedup_sets_only (q : ProcessingQueue) (k : String) :
    (k ∈ q.processing ∨ k ∈ q.processed →
      (q.put k).1.channel = q.channel ∧ (q.put k).2 ≠ .accepted) ∧
    (k ∉ q.processing → k ∉ q.processed → q.channel.length < q.maxSize →
      (q.put k).2 = .accepted ∧ (q.put k).1.channel = q.channel ++ [k]) := by
  constructor
  · intro h
    by_cases h1 : k ∈ q.processed
    · simp [ProcessingQueue.put, h1]
    · have h2 : k ∈ q.processing := h.resolve_right h1
      simp [ProcessingQueue.put, h1, h2]
  · intro h1 h2 h3
    simp [ProcessingQueue.put, h1, h2, Nat.not_le.mpr h3]

/-- C3 amended, witness: a key still sitting in the channel is accepted a
second time; a key in `processed` is rejected. -/
theorem c3_admission_dedup_sets_only_witness :
    (({ channel := ["a"] } : ProcessingQueue).put "a").1.channel = ["a", "a"] ∧
    (({ processed := ["b"] } : ProcessingQueue).put "b").2 ≠ .accepted := by
  refine ⟨((c3_admission_dedup_sets_only { channel := ["a"] } "a").2
      (by decide) (by decide) (by decide)).2, ?_⟩
  exact ((c3_admission_dedup_sets_only { processed := ["b"] } "b").1
      (Or.inr (by decide))).2

/-- C4.  The admission contract of `ProcessingQueue.put`: a key in
`processed` is rejected as a processed duplicate, incrementing
`skipped_total` by exactly one and changing nothing else; a key in
`processing` is rejected with the state unchanged; with a full channel the
key is rejected with the state unchanged; otherwise the key is accepted,
appended to the channel, and `pending` grows by exactly one with all other
fields untouched. -/
theorem c4_admit_contract (q : ProcessingQueue) (k : String) :
    (k ∈ q.processed →
      q.put k = ({ q with stats :=
        { q.stats with skippedTotal := q.stats.skippedTotal + 1 } },
        .duplicateProcessed)) ∧
    (k ∉ q.processed → k ∈ q.processing → q.put k = (q, .duplicateInFlight)) ∧
    (k ∉ q.processed → k ∉ q.processing → q.maxSize ≤ q.channel.length →
      q.put k = (q, .full)) ∧
    (k ∉ q.processed → k ∉ q.processing → q.channel.length < q.maxSize →
      q.put k = ({ q with channel := q.channel ++ [k], stats :=
        { q.stats with pending := q.stats.pending + 1 } }, .accepted)) := by
  refine ⟨fun h1 => ?_, fun h1 h2 => ?_, fun h1 h2 h3 => ?_, fun h1 h2 h3 => ?_⟩
  · simp [ProcessingQueue.put, h1]
  · simp [ProcessingQueue.put, h1, h2]
  · simp [ProcessingQueue.put, h1, h2, h3]
  · simp [ProcessingQueue.put, h1, h2, Nat.not_le.mpr h3]

/-- C4 witness: the four admission outcomes at concrete queues. -/
theorem c4_admit_contract_witness :
    (({ processed := ["p"] } : ProcessingQueue).put "p").2 = .duplicateProcessed ∧
    (({ processed := ["p"] } : ProcessingQueue).put "p").1.stats.skippedTotal = 1 ∧
    ({ processing := ["i"] } : ProcessingQueue).put "i" =
      ({ processing := ["i"] }, .duplicateInFlight) ∧
    ({ maxSize := 0 } : ProcessingQueue).put "x" = ({ maxSize := 0 }, .full) ∧
    (({} : ProcessingQueue).put "x").2 = .accepted ∧
    (({} : ProcessingQueue).put "x").1.stats.pending = 1 := by
  have h1 := (c4_admit_contract { processed := ["p"] } "p").1 (by decide)
  have h2 := (c4_admit_contract { processing := ["i"] } "i").2.1 (by decide) (by decide)
  have h3 := (c4_admit_contract { maxSize := 0 } "x").2.2.1 (by decide) (by decide)
    (by decide)
  have h4 := (c4_admit_contract {} "x").2.2.2 (by decide) (by decide) (by decide)
  exact ⟨by rw [h1], by rw [h1], h2, h3, by rw [h4], by rw [h4]; rfl⟩

/-- C9.  `get_pipeline_stats` sets `completed_at` exactly when every queue
reports zero pending and zero in-flight and at least one file was
discovered; it clears `completed_at` whenever some queue is non-quiescent;
and once completed, `uptime_seconds` equals `completed_at − start_time`
and stays frozen (with `completed_at` unchanged) on any later snapshot
taken while still quiescent. -/
theorem c9_completion_telemetry :
    (∀ (s : PipelineState) (now : Int),
      ((getPipelineStats s now).1.completedTime).isSome =
        (pipelineIsIdle s && decide (0 < s.totalDiscovered))) ∧
    (∀ (s : PipelineState) (now : Int), pipelineIsIdle s = false →
      (getPipelineStats s now).1.completedTime = none) ∧
    (∀ (s : PipelineState) (now nowB st : Int), pipelineIsIdle s = true →
      0 < s.totalDiscovered → s.startTime = some st →
      (getPipelineStats s now).2.completedAt = some (s.completedTime.getD now) ∧
      (getPipelineStats s now).2.uptimeSeconds = s.completedTime.getD now - st ∧
      (getPipelineStats (getPipelineStats s now).1 nowB).2.uptimeSeconds =
        (getPipelineStats s now).2.uptimeSeconds ∧
      (getPipelineStats (getPipelineStats s now).1 nowB).1.completedTime =
        (getPipelineStats s now).1.completedTime) := by
  refine ⟨fun s now => ?_, fun s now h1 => ?_, fun s now nowB st h1 h2 h3 => ?_⟩
  · by_cases h1 : pipelineIsIdle s <;> by_cases h2 : 0 < s.totalDiscovered <;>
      cases hc : s.completedTime <;> simp [getPipelineStats, h1, h2, hc]
  · simp [getPipelineStats, h1]
  · have hIdle : ∀ (b : Bool) (st2 ct : Option Int) (td : Nat),
        pipelineIsIdle (PipelineState.mk s.queueStats b st2 ct td) =
          pipelineIsIdle s :=
      fun _ _ _ _ => rfl
    cases hc : s.completedTime <;>
      simp [getPipelineStats, h1, h2, h3, hc, hIdle]

/-- C9 witness: a quiescent pipeline with one discovered file and start
time 100 completes at the snapshot time 160; a later snapshot at time 999
keeps `completed_at = 160` and the frozen uptime of 60 seconds. -/
theorem c9_completion_telemetry_witness :
    (getPipelineStats { queueStats := (fun _ => {}), isRunning := true,
                        startTime := some 100, completedTime := none,
                        totalDiscovered := 1 }
      160).2.completedAt = some 160 ∧
    (getPipelineStats { queueStats := (fun _ => {}), isRunning := true,
                        startTime := some 100, completedTime := none,
                        totalDiscovered := 1 }
      160).2.uptimeSeconds = 60 ∧
    (getPipelineStats (getPipelineStats { queueStats := (fun _ => {}),
                                          isRunning := true,
                                          startTime := some 100,
                                          completedTime := none,
                                          totalDiscovered := 1 }
      160).1 999).2.uptimeSeconds = 60 := by
  have h := c9_completion_telemetry.2.2
    { queueStats := (fun _ => {}), isRunning := true, startTime := some 100,
      completedTime := none, totalDiscovered := 1 } 160 999 100
    rfl (by decide) rfl
  exact ⟨h.1, by rw [h.2.1]; rfl, by rw [h.2.2.1, h.2.1]; rfl⟩

/-- Taking from a queue whose channel starts with `k` yields `k` and the
state with the head removed, `k` marked in-flight, and the gauges
adjusted. -/
theorem get_cons (q : ProcessingQueue) (k : String) (rest : List String)
    (h : q.channel = k :: rest) :
    q.get = some (k,
      { q with channel := rest,
               processing := setAdd q.processing k,
               stats := { q.stats with
                          pending := q.stats.pending - 1,
                          processing := q.stats.processing + 1 } }) := by
  simp only [ProcessingQueue.get, h]

/-- C10 counterexample.  The diagnostic reset (`reset_pipeline`) clears
only the processed set: a queue with a key in `processing` and a nonzero
failure counter keeps both across the reset, contrary to the claim that it
clears the processing set and zeroes all counters. -/
theorem c10_reset_clears_only_processed :
    (resetQueue { processing := ["k"], stats := { failedTotal := 1 } }).processing
        = ["k"] ∧
    (resetQueue { processing := ["k"], stats := { failedTotal := 1 } }).stats.failedTotal
        = 1 := by
  decide

/-- C10 amended.  `clear_index` clears both dedup sets and zeroes the five
numeric counters of every queue, while the diagnostic reset clears only
the processed set; neither touches the key channel, whose queued keys
remain to be taken, so after `clear_index` the first take drives the
internal `pending` gauge to −1, below zero and below the channel
length. -/
theorem c10_clear_reset_frame (q : ProcessingQueue) :
    (clearIndexQueue q).channel = q.channel ∧
    (clearIndexQueue q).processed = [] ∧ (clearIndexQueue q).processing = [] ∧
    (clearIndexQueue q).stats.pending = 0 ∧
    (clearIndexQueue q).stats.processing = 0 ∧
    (clearIndexQueue q).stats.completedTotal = 0 ∧
    (clearIndexQueue q).stats.skippedTotal = 0 ∧
    (clearIndexQueue q).stats.failedTotal = 0 ∧
    (resetQueue q).channel = q.channel ∧ (resetQueue q).processed = [] ∧
    (resetQueue q).processing = q.processing ∧ (resetQueue q).stats = q.stats ∧
    (∀ k rest, q.channel = k :: rest →
      ∃ q2, (clearIndexQueue q).get = some (k, q2) ∧ q2.stats.pending = -1 ∧
        q2.stats.pending < (q2.channel.length : Int)) := by
  refine ⟨rfl, rfl, rfl, rfl, rfl, rfl, rfl, rfl, rfl, rfl, rfl, rfl, ?_⟩
  intro k rest hch
  have hch2 : (clearIndexQueue q).channel = k :: rest := hch
  refine ⟨_, get_cons (clearIndexQueue q) k rest hch2, rfl, ?_⟩
  show (clearIndexQueue q).stats.pending - 1 < (rest.length : Int)
  have h0 : (0 : Int) ≤ (rest.length : Int) := Int.natCast_nonneg _
  show (0 : Int) - 1 < (rest.length : Int)
  omega

/-- C10 amended, witness: on a queue holding keys `a`, `b` with a key in
flight and five completions, `clear_index` keeps the channel, the reset
keeps the processing set, and the first take after `clear_index` yields
`pending = −1`. -/
theorem c10_clear_reset_frame_witness :
    (clearIndexQueue { channel := ["a", "b"], processing := ["x"],
                       stats := { completedTotal := 5 } }).channel = ["a", "b"] ∧
    (resetQueue { channel := ["a", "b"], processing := ["x"],
                  stats := { completedTotal := 5 } }).processing = ["x"] ∧
    ∃ q2, (clearIndexQueue { channel := ["a", "b"], processing := ["x"],
                             stats := { completedTotal := 5 } }).get
        = some ("a", q2) ∧
      q2.stats.pending = -1 ∧ q2.stats.pending < (q2.channel.length : Int) := by
  have h := c10_clear_reset_frame
    { channel := ["a", "b"], processing := ["x"], stats := { completedTotal := 5 } }
  exact ⟨h.1, h.2.2.2.2.2.2.2.2.2.2.1, h.2.2.2.2.2.2.2.2.2.2.2.2 "a" ["b"] rfl⟩

/-- With no cancel check wired in (the `None` default), the scan batch
loop indexes every batch, admits nothing when `on_file_discovered` is
absent, and never reports cancellation. -/
theorem scanBatchesGo_none (np : String → Bool) :
    ∀ (i : Nat) (batches : List (List String)),
      scanBatchesGo none false np i batches = (batches.flatten, [], false) := by
  intro i batches
  induction batches generalizing i with
  | nil => rfl
  | cons b rest ih => simp [scanBatchesGo, ih]

/-- C8.  The claim asserts that after `cancel_scan` answers
`cancel_requested`, the discovery walk checks the flag between batches and
indexes no further batch.  In the code `run_initial_scan` invokes
`scan_directory` without a `cancel_check`, and nothing ever reads
`scan_state.cancel_requested`, so the walk runs to the end: every batch is
indexed and the cleanup pass runs, whatever the flag says. -/
theorem c8_cancellation_unwired :
    (∀ (needsProcessing : String → Bool) (batches : List (List String)),
      (runInitialScanWalk needsProcessing batches).cancelled = false ∧
      (runInitialScanWalk needsProcessing batches).indexed = batches.flatten ∧
      (runInitialScanWalk needsProcessing batches).cleanupRan = true) ∧
    (cancelScanEndpoint true).2 = "cancel_requested" ∧
    (cancelScanEndpoint false).2 = "not_scanning" := by
  refine ⟨fun np batches => ?_, rfl, rfl⟩
  simp [runInitialScanWalk, scanDirectory, scanBatchesGo_none]

/-- C7 counterexample.  Startup re-admission in batches of 50 with 500 ms
yields does not exist: the EXIF pending loop uses batch size 100 (and not
50), `run_initial_scan` contains no sleep at all, its directory walk
passes no admission callback, and the walk admits nothing into the stage
queues. -/
theorem c7_no_resume_batches_of_fifty :
    ScanAction.phaseLoop "exif" 100 ∈ runInitialScanActions ∧
    ScanAction.phaseLoop "exif" 50 ∉ runInitialScanActions ∧
    ScanAction.scanDir false false ∈ runInitialScanActions ∧
    (runInitialScanActions.all (fun a =>
      match a with
      | ScanAction.sleepMs _ => false
      | _ => true)) = true ∧
    (runInitialScanWalk (fun _ => true) [["k1"]]).admitted = [] := by
  decide

/-- When every attempted row succeeds, each batch call reports its batch
size and drops it from the pending list, so the loop drains everything
(for any positive batch size). -/
theorem processPendingLoop_all_ok (batchSize : Nat) (hb : 0 < batchSize) :
    ∀ (fuel : Nat) (pending : List String), pending.length ≤ fuel →
      processPendingLoop batchSize (fun _ => true) fuel pending = [] := by
  intro fuel
  induction fuel with
  | zero =>
    intro pending hl
    exact List.eq_nil_of_length_eq_zero (Nat.le_zero.mp hl)
  | succ n ih =>
    intro pending hl
    cases pending with
    | nil => simp [processPendingLoop, processPendingCall]
    | cons x xs =>
      have hcount : (processPendingCall batchSize (fun _ => true)
          (x :: xs)).1 ≠ 0 := by
        simp only [processPendingCall, List.filter_true, List.length_take,
          List.length_cons]
        omega
      have hrest : (processPendingCall batchSize (fun _ => true)
          (x :: xs)).2 = (x :: xs).drop batchSize := by
        simp [processPendingCall]
      show (if (processPendingCall batchSize (fun _ => true) (x :: xs)).1 = 0
          then x :: xs
          else processPendingLoop batchSize (fun _ => true) n
            (processPendingCall batchSize (fun _ => true) (x :: xs)).2) = []
      rw [if_neg hcount, hrest]
      refine ih _ ?_
      rw [List.length_drop]
      simp only [List.length_cons] at hl ⊢
      omega

/-- A first batch with zero successes ends the loop at once: the pending
rows are left exactly as they were. -/
theorem processPendingAll_zero_stop (batchSize : Nat)
    (succeeds : String → Bool) (pending : List String)
    (h0 : (processPendingCall batchSize succeeds pending).1 = 0) :
    processPendingAll batchSize succeeds pending = pending := by
  unfold processPendingAll
  cases pending with
  | nil => rfl
  | cons x xs =>
    show (if (processPendingCall batchSize succeeds (x :: xs)).1 = 0
        then x :: xs
        else processPendingLoop batchSize succeeds xs.length
          (processPendingCall batchSize succeeds (x :: xs)).2) = x :: xs
    rw [if_pos h0]

/-- C7 amended.  On startup, `run_initial_scan` walks the directory
(passing neither a cancel check nor a pipeline-admission callback, so the
stage queues receive nothing) and then, stage by stage, selects store rows
missing that stage's completion flag in batches of 100, 50, 20 or 10 —
never 50 across the board — with no sleep between batches.  EXIF,
thumbnails, hashing, CLIP, faces and captioning loop while a batch reports
at least one success — draining everything when every item succeeds, and
stopping with rows still pending as soon as a batch reports zero successes
— while geocoding and motion photos issue a single batch call that leaves
any remainder untouched. -/
theorem c7_startup_phase_processing :
    (∀ (name : String) (n : Nat),
      ScanAction.phaseLoop name n ∈ runInitialScanActions →
        n = 100 ∨ n = 50 ∨ n = 20 ∨ n = 10) ∧
    (∀ (name : String) (n : Nat),
      ScanAction.phaseOnce name n ∈ runInitialScanActions →
        (name = "geocoding" ∧ n = 100) ∨ (name = "motion_photos" ∧ n = 50)) ∧
    (∀ ms : Nat, ScanAction.sleepMs ms ∉ runInitialScanActions) ∧
    (∀ c o : Bool, ScanAction.scanDir c o ∈ runInitialScanActions →
      c = false ∧ o = false) ∧
    (∀ (batchSize : Nat) (pending : List String), 0 < batchSize →
      processPendingAll batchSize (fun _ => true) pending = []) ∧
    (∀ (batchSize : Nat) (succeeds : String → Bool) (pending : List String),
      (processPendingCall batchSize succeeds pending).1 = 0 →
      processPendingAll batchSize succeeds pending = pending) ∧
    (∀ (batchSize : Nat) (pending : List String),
      (processPendingCall batchSize (fun _ => true) pending).2 =
        pending.drop batchSize) ∧
    (∀ (needsProcessing : String → Bool) (batches : List (List String)),
      (runInitialScanWalk needsProcessing batches).admitted = []) := by
  refine ⟨?_, ?_, ?_, ?_, ?_, processPendingAll_zero_stop, ?_, ?_⟩
  · intro name n h
    simp only [runInitialScanActions, List.mem_cons, List.not_mem_nil,
      or_false, reduceCtorEq, false_or, ScanAction.phaseLoop.injEq] at h
    rcases h with ⟨-, rfl⟩ | ⟨-, rfl⟩ | ⟨-, rfl⟩ | ⟨-, rfl⟩ | ⟨-, rfl⟩ | ⟨-, rfl⟩ <;>
      decide
  · intro name n h
    simp only [runInitialScanActions, List.mem_cons, List.not_mem_nil,
      or_false, reduceCtorEq, false_or, ScanAction.phaseOnce.injEq] at h
    exact h
  · intro ms h
    simp only [runInitialScanActions, List.mem_cons, List.not_mem_nil,
      or_false, reduceCtorEq, false_or] at h
  · intro c o h
    simp only [runInitialScanActions, List.mem_cons, List.not_mem_nil,
      or_false, reduceCtorEq, false_or, ScanAction.scanDir.injEq] at h
    exact h
  · intro batchSize pending hb
    exact processPendingLoop_all_ok batchSize hb pending.length pending le_rfl
  · intro batchSize pending
    simp [processPendingCall]
  · intro np batches
    simp [runInitialScanWalk, scanDirectory, scanBatchesGo_none]

/-- C7 amended, witness: with every item succeeding, a batch-100 loop
drains two pending rows; with an enricher failing everything, the loop
stops at once leaving the row pending; the EXIF loop's batch size 100 is
among the sizes actually used. -/
theorem c7_startup_phase_processing_witness :
    processPendingAll 100 (fun _ => true) ["a", "b"] = [] ∧
    processPendingAll 10 (fun _ => false) ["a"] = ["a"] ∧
    (100 = 100 ∨ 100 = 50 ∨ 100 = 20 ∨ 100 = 10) := by
  have h := c7_startup_phase_processing
  exact ⟨h.2.2.2.2.1 100 ["a", "b"] (by decide),
    h.2.2.2.2.2.1 10 (fun _ => false) ["a"] (by decide),
    h.1 "exif" 100 (by decide)⟩

/-- The time-gap split condition `gap > EVENT_TIME_GAP_HOURS` (a rational
comparison after dividing seconds by 3600) holds exactly when the raw
second difference exceeds 14400. -/
theorem gapHours_gt_iff (prev curr : PhotoRow) :
    EVENT_TIME_GAP_HOURS < gapHours prev curr ↔
      14400 < dateKey curr - dateKey prev := by
  unfold EVENT_TIME_GAP_HOURS gapHours
  rw [lt_div_iff₀ (by norm_num : (0 : ℚ) < 3600)]
  rw [show ((4 : ℚ) * 3600) = ((14400 : Int) : ℚ) by norm_num]
  exact Int.cast_lt

/-- C5 counterexample.  With fewer than three dated photos,
`detect_events` returns before the delete pass ever runs: the stale Event
and EventPhoto rows survive, so this run does not replace the tables with
the new (empty) set, refuting the claim's universal transactional
replacement. -/
theorem c5_stale_events_survive :
    detectEventsDB twoPhotoStore staleEventsDB = staleEventsDB ∧
    staleEventsDB.events ≠ [] ∧ staleEventsDB.eventPhotos ≠ [] ∧
    finalClusters twoPhotoStore = [] ∧ detectEventsCount twoPhotoStore = 0 := by
  decide

/-- C5 amended.  `detect_events` takes exactly the dated photos in
ascending timestamp order, splits where the gap between consecutive
photos exceeds 4 hours (14400 s), sub-splits where consecutive GPS fixes
differ by more than 0.05 degrees in latitude or longitude, and keeps only
runs of at least `MIN_PHOTOS_PER_EVENT` = 3 members.  When at least three
dated photos exist it rebuilds the Event/EventPhoto tables from scratch,
independent of their prior contents; with fewer it returns early and the
prior rows survive.  The six-photo burst at 09:00-09:20 and 18:00-18:20
yields exactly two events of three members each. -/
theorem c5_detect_events :
    (∀ (store : List PhotoRow) (db : EventsDB),
      MIN_PHOTOS_PER_EVENT ≤ (photosWithDates store).length →
      detectEventsDB store db =
        detectEventsDB store { events := [], eventPhotos := [] }) ∧
    (∀ (store : List PhotoRow) (db : EventsDB),
      (photosWithDates store).length < MIN_PHOTOS_PER_EVENT →
      detectEventsDB store db = db) ∧
    (∀ store : List PhotoRow, List.Sorted dateLE (photosWithDates store)) ∧
    (∀ (store : List PhotoRow) (p : PhotoRow), p ∈ store → p.dateTaken.isSome →
      p ∈ photosWithDates store) ∧
    (∀ (store : List PhotoRow) (c : List PhotoRow), c ∈ finalClusters store →
      MIN_PHOTOS_PER_EVENT ≤ c.length) ∧
    (∀ prev curr : PhotoRow, EVENT_TIME_GAP_HOURS < gapHours prev curr ↔
      14400 < dateKey curr - dateKey prev) ∧
    (∀ (h1 h2 : String) (d1 d2 : Option Int) (plat plon clat clon : ℚ),
      locSplit { fileHash := h1, dateTaken := d1, gpsLat := some plat,
                 gpsLon := some plon }
               { fileHash := h2, dateTaken := d2, gpsLat := some clat,
                 gpsLon := some clon } = true ↔
        (LOCATION_PROXIMITY_DEGREES < |clat - plat| ∨
          LOCATION_PROXIMITY_DEGREES < |clon - plon|)) ∧
    (detectEventsCount sixBurstPhotos = 2 ∧
      (detectEventsDB sixBurstPhotos { events := [], eventPhotos := [] }).events.map
          (fun e => e.photoCount) = [3, 3] ∧
      (detectEventsDB sixBurstPhotos { events := [], eventPhotos := [] }).eventPhotos
        = [(1, "p1"), (1, "p2"), (1, "p3"), (2, "p4"), (2, "p5"), (2, "p6")]) := by
  have hsorted : photosWithDates sixBurstPhotos = sixBurstPhotos := by decide
  have hsplit : splitByTime sixBurstPhotos =
      [[burst1, burst2, burst3], [burst4, burst5, burst6]] := by
    simp [splitByTime, splitByTimeGo, sixBurstPhotos, gapHours_gt_iff, dateKey,
      burst1, burst2, burst3, burst4, burst5, burst6, MIN_PHOTOS_PER_EVENT]
  have hfinal : finalClusters sixBurstPhotos =
      [[burst1, burst2, burst3], [burst4, burst5, burst6]] := by
    simp only [finalClusters, hsorted, hsplit]
    decide
  refine ⟨fun store db h => by simp [detectEventsDB, Nat.not_lt.mpr h],
    fun store db h => by simp [detectEventsDB, h],
    fun store => List.sorted_insertionSort dateLE _,
    fun store p hp hsome => ?_, fun store c hc => ?_, gapHours_gt_iff,
    fun h1 h2 d1 d2 plat plon clat clon => ?_, ?_, ?_, ?_⟩
  · exact ((List.perm_insertionSort dateLE _).mem_iff).mpr
      (List.mem_filter.mpr ⟨hp, hsome⟩)
  · simp only [finalClusters] at hc
    split at hc
    · exact absurd hc (List.not_mem_nil c)
    · obtain ⟨t, ht, hcf⟩ := List.mem_flatMap.mp hc
      exact of_decide_eq_true (List.mem_filter.mp hcf).2
  · simp [locSplit, Bool.or_eq_true, decide_eq_true_eq]
  · simp only [detectEventsCount, hfinal]
    decide
  · simp only [detectEventsDB, hfinal]
    decide
  · simp only [detectEventsDB, hfinal]
    decide

/-- C5 witness: on the six-photo burst the rebuild ignores the stale
rows; on the two-photo store the early return keeps them; a dated photo
is listed by the query; and a 3.67-degree latitude jump triggers the
location split. -/
theorem c5_detect_events_witness :
    detectEventsDB sixBurstPhotos staleEventsDB =
      detectEventsDB sixBurstPhotos { events := [], eventPhotos := [] } ∧
    detectEventsDB twoPhotoStore staleEventsDB = staleEventsDB ∧
    burst1 ∈ photosWithDates sixBurstPhotos ∧
    locSplit { fileHash := "a", dateTaken := some 0, gpsLat := some 48.85,
               gpsLon := some 2.29 }
             { fileHash := "b", dateTaken := some 0, gpsLat := some 52.52,
               gpsLon := some 13.40 } = true := by
  have h := c5_detect_events
  refine ⟨h.1 sixBurstPhotos staleEventsDB (by decide),
    h.2.1 twoPhotoStore staleEventsDB (by decide),
    h.2.2.2.1 sixBurstPhotos burst1 (by decide) (by decide), ?_⟩
  exact (h.2.2.2.2.2.2.1 "a" "b" (some 0) (some 0) 48.85 2.29 52.52 13.40).mpr
    (Or.inl (by norm_num [LOCATION_PROXIMITY_DEGREES, abs_of_nonneg]))

/-- `clusteredIds` distributes over a cons of the cluster map. -/
theorem clusteredIds_cons (l : Int) (fids : List Nat)
    (m : List (Int × List Nat)) :
    clusteredIds ((l, fids) :: m) = fids ++ clusteredIds m := by
  simp [clusteredIds]

/-- Every entry of `addToClusterMap m label fid` carries either the new
label or a label already present in `m`. -/
theorem mem_addToClusterMap {m : List (Int × List Nat)} {label : Int}
    {fid : Nat} {e : Int × List Nat} (he : e ∈ addToClusterMap m label fid) :
    e.1 = label ∨ ∃ e2 ∈ m, e.1 = e2.1 := by
  induction m with
  | nil =>
    rw [show addToClusterMap [] label fid = [(label, [fid])] from rfl,
      List.mem_singleton] at he
    subst he
    exact Or.inl rfl
  | cons hd tl ih =>
    obtain ⟨l, fids⟩ := hd
    by_cases h : l = label
    · subst h
      rw [show addToClusterMap ((l, fids) :: tl) l fid =
          (l, fids ++ [fid]) :: tl from by simp [addToClusterMap],
        List.mem_cons] at he
      rcases he with rfl | he
      · exact Or.inl rfl
      · exact Or.inr ⟨e, List.mem_cons_of_mem _ he, rfl⟩
    · rw [show addToClusterMap ((l, fids) :: tl) label fid =
          (l, fids) :: addToClusterMap tl label fid from by
            simp [addToClusterMap, h],
        List.mem_cons] at he
      rcases he with rfl | he
      · exact Or.inr ⟨(l, fids), List.mem_cons_self _ _, rfl⟩
      · rcases ih he with hl | ⟨e2, he2, heq⟩
        · exact Or.inl hl
        · exact Or.inr ⟨e2, List.mem_cons_of_mem _ he2, heq⟩

/-- Fold invariant: the cluster-map build introduces no entry labelled
`-1`. -/
theorem buildClusterMap_go_labels (pairs : List (Nat × Int)) :
    ∀ (m : List (Int × List Nat)), (∀ e ∈ m, e.1 ≠ -1) →
      ∀ e ∈ pairs.foldl
        (fun m p => if p.2 = -1 then m else addToClusterMap m p.2 p.1) m,
        e.1 ≠ -1 := by
  induction pairs with
  | nil => intro m hm e he; exact hm e he
  | cons p rest ih =>
    intro m hm e he
    simp only [List.foldl_cons] at he
    by_cases hp : p.2 = -1
    · rw [if_pos hp] at he
      exact ih m hm e he
    · rw [if_neg hp] at he
      refine ih _ ?_ e he
      intro e2 he2
      rcases mem_addToClusterMap he2 with hl | ⟨e3, he3, heq⟩
      · rw [hl]; exact hp
      · rw [heq]; exact hm e3 he3

/-- The ids of `addToClusterMap m label fid` are `fid` plus the ids
already in `m`. -/
theorem clusteredIds_addToClusterMap (m : List (Int × List Nat)) (label : Int)
    (fid : Nat) :
    ∀ x ∈ clusteredIds (addToClusterMap m label fid),
      x = fid ∨ x ∈ clusteredIds m := by
  induction m with
  | nil =>
    intro x hx
    rw [show addToClusterMap [] label fid = [(label, [fid])] from rfl,
      clusteredIds_cons] at hx
    simp only [clusteredIds, List.flatMap_nil, List.append_nil,
      List.mem_singleton] at hx
    exact Or.inl hx
  | cons hd tl ih =>
    obtain ⟨l, fids⟩ := hd
    intro x hx
    rw [clusteredIds_cons]
    by_cases h : l = label
    · subst h
      rw [show addToClusterMap ((l, fids) :: tl) l fid =
          (l, fids ++ [fid]) :: tl from by simp [addToClusterMap],
        clusteredIds_cons, List.mem_append, List.mem_append] at hx
      rcases hx with (hx | hx) | hx
      · exact Or.inr (List.mem_append.mpr (Or.inl hx))
      · exact Or.inl (List.mem_singleton.mp hx)
      · exact Or.inr (List.mem_append.mpr (Or.inr hx))
    · rw [show addToClusterMap ((l, fids) :: tl) label fid =
          (l, fids) :: addToClusterMap tl label fid from by
            simp [addToClusterMap, h],
        clusteredIds_cons, List.mem_append] at hx
      rcases hx with hx | hx
      · exact Or.inr (List.mem_append.mpr (Or.inl hx))
      · rcases ih x hx with hfid | hmem
        · exact Or.inl hfid
        · exact Or.inr (List.mem_append.mpr (Or.inr hmem))

/-- Fold invariant: a face id occurring only with label `-1` never enters
the cluster map. -/
theorem noise_never_clustered (fid : Nat) (pairs : List (Nat × Int)) :
    ∀ (m : List (Int × List Nat)), fid ∉ clusteredIds m →
      (∀ l, (fid, l) ∈ pairs → l = -1) →
      fid ∉ clusteredIds (pairs.foldl
        (fun m p => if p.2 = -1 then m else addToClusterMap m p.2 p.1) m) := by
  induction pairs with
  | nil => intro m hm _; exact hm
  | cons p rest ih =>
    intro m hm hall
    simp only [List.foldl_cons]
    by_cases hp : p.2 = -1
    · rw [if_pos hp]
      exact ih m hm (fun l hl => hall l (List.mem_cons_of_mem _ hl))
    · rw [if_neg hp]
      refine ih _ ?_ (fun l hl => hall l (List.mem_cons_of_mem _ hl))
      intro hx
      rcases clusteredIds_addToClusterMap m p.2 p.1 fid hx with hfid | hmem
      · have hpp : (fid, p.2) = p := by rw [hfid]
        have hmem2 : (fid, p.2) ∈ p :: rest := by
          rw [hpp]; exact List.mem_cons_self _ _
        exact hp (hall p.2 hmem2)
      · exact hm hmem

/-- A face outside the target id set passes through `applyCluster`
unchanged. -/
theorem applyCluster_mem_of_not_target {faces : List FaceRow} {f : FaceRow}
    (hf : f ∈ faces) {fids : List Nat} (hnot : f.faceId ∉ fids) (pid : Nat) :
    f ∈ applyCluster faces fids pid := by
  refine List.mem_map.mpr ⟨f, hf, ?_⟩
  simp only [if_neg hnot]

/-- A face belonging to no cluster of the map is untouched by the whole
assignment loop. -/
theorem runClusters_preserves (m : List (Int × List Nat)) :
    ∀ (faces : List FaceRow) (nextPid : Nat) (f : FaceRow), f ∈ faces →
      (∀ e ∈ m, f.faceId ∉ e.2) → f ∈ (runClusters faces nextPid m).1 := by
  induction m with
  | nil => intro faces nextPid f hf _; exact hf
  | cons e rest ih =>
    obtain ⟨l, fids⟩ := e
    intro faces nextPid f hf hnot
    have hfid : f.faceId ∉ fids := hnot (l, fids) (List.mem_cons_self _ _)
    exact ih _ _ f (applyCluster_mem_of_not_target hf hfid _)
      (fun e2 he2 => hnot e2 (List.mem_cons_of_mem _ he2))

/-- Python's `max(ids, key=count)` returns one of the candidates. -/
theorem maxByCount_mem (faces : List FaceRow) :
    ∀ (rest : List Nat) (best : Nat),
      maxByCount faces best rest ∈ best :: rest := by
  intro rest
  induction rest with
  | nil => intro best; exact List.mem_singleton.mpr rfl
  | cons q tl ih =>
    intro best
    simp only [maxByCount]
    rcases List.mem_cons.mp
        (ih (if countPid faces best < countPid faces q then q else best)) with
      h | h
    · rw [h]
      by_cases hc : countPid faces best < countPid faces q
      · rw [if_pos hc]
        exact List.mem_cons_of_mem _ (List.mem_cons_self _ _)
      · rw [if_neg hc]
        exact List.mem_cons_self _ _
    · exact List.mem_cons_of_mem _ (List.mem_cons_of_mem _ h)

/-- Python's `max(ids, key=count)` returns a candidate of maximal key. -/
theorem maxByCount_ge (faces : List FaceRow) :
    ∀ (rest : List Nat) (best p : Nat), p ∈ best :: rest →
      countPid faces p ≤ countPid faces (maxByCount faces best rest) := by
  intro rest
  induction rest with
  | nil =>
    intro best p hp
    rw [List.mem_singleton.mp hp]
    exact le_refl _
  | cons q tl ih =>
    intro best p hp
    simp only [maxByCount]
    have hb2 : countPid faces best ≤ countPid faces
        (if countPid faces best < countPid faces q then q else best) := by
      by_cases hc : countPid faces best < countPid faces q
      · rw [if_pos hc]; exact le_of_lt hc
      · rw [if_neg hc]
    have hq2 : countPid faces q ≤ countPid faces
        (if countPid faces best < countPid faces q then q else best) := by
      by_cases hc : countPid faces best < countPid faces q
      · rw [if_pos hc]
      · rw [if_neg hc]; exact Nat.le_of_not_lt hc
    have hself := ih (if countPid faces best < countPid faces q then q else best)
      (if countPid faces best < countPid faces q then q else best)
      (List.mem_cons_self _ _)
    rcases List.mem_cons.mp hp with h | h
    · exact le_trans (h ▸ hb2) hself
    · rcases List.mem_cons.mp h with h2 | h2
      · exact le_trans (h2 ▸ hq2) hself
      · exact ih _ p (List.mem_cons_of_mem _ h2)

/-- C6.  `cluster_faces` passes eps = 0.4, min_samples = 2 and the cosine
metric to DBSCAN; label −1 (noise) rows never enter the cluster map, and a
face clustered nowhere keeps its person assignment untouched; and for any
cluster with at least one member already belonging to a person, no new
person is created — the cluster is assigned to an existing person owning
the most member faces of that cluster. -/
theorem c6_face_clustering :
    clusterFacesDBSCANParams =
      { eps := 0.4, minSamples := 2, metric := "cosine" } ∧
    (∀ (pairs : List (Nat × Int)) (e : Int × List Nat),
      e ∈ buildClusterMap pairs → e.1 ≠ -1) ∧
    (∀ (pairs : List (Nat × Int)) (fid : Nat),
      (∀ l, (fid, l) ∈ pairs → l = -1) →
      fid ∉ clusteredIds (buildClusterMap pairs)) ∧
    (∀ (faces : List FaceRow) (labels : List Int) (nextPid : Nat) (f : FaceRow),
      f ∈ faces →
      f.faceId ∉ clusteredIds
        (buildClusterMap ((faces.map (fun x => x.faceId)).zip labels)) →
      f ∈ (clusterFacesRun faces labels nextPid).1) ∧
    (∀ (nextPid : Nat) (members : List FaceRow),
      existingPersonIds members ≠ [] →
      (assignCluster nextPid members).2 = false ∧
      (assignCluster nextPid members).1 ∈ existingPersonIds members ∧
      ∀ p ∈ existingPersonIds members,
        countPid members p ≤
          countPid members (assignCluster nextPid members).1) := by
  refine ⟨rfl, ?_, ?_, ?_, ?_⟩
  · intro pairs e he
    exact buildClusterMap_go_labels pairs [] (fun e2 he2 => absurd he2
      (List.not_mem_nil e2)) e he
  · intro pairs fid hall
    exact noise_never_clustered fid pairs [] (List.not_mem_nil fid) hall
  · intro faces labels nextPid f hf hnot
    unfold clusterFacesRun
    by_cases hlen : faces.length < CLUSTER_MIN_SAMPLES
    · rw [if_pos hlen]; exact hf
    · rw [if_neg hlen]
      refine runClusters_preserves _ faces nextPid f hf ?_
      intro e he hin
      exact hnot (List.mem_flatMap.mpr ⟨e, he, hin⟩)
  · intro nextPid members hne
    cases hex : existingPersonIds members with
    | nil => exact absurd hex hne
    | cons p rest =>
      have h1 : (assignCluster nextPid members).1 = maxByCount members p rest := by
        simp [assignCluster, hex]
      refine ⟨by simp [assignCluster, hex], ?_, ?_⟩
      · rw [h1]
        exact maxByCount_mem members rest p
      · intro q hq
        rw [h1]
        exact maxByCount_ge members rest p q hq

/-- C6 witness: a cluster with members of persons 7, 7, 9 and one
unassigned member reuses person 7 and creates nobody; face 5, labelled
only −1, is clustered nowhere. -/
theorem c6_face_clustering_witness :
    (assignCluster 50 [{ faceId := 1, fileHash := "h1", personId := some 7 },
        { faceId := 2, fileHash := "h1", personId := none },
        { faceId := 3, fileHash := "h2", personId := some 7 },
        { faceId := 4, fileHash := "h2", personId := some 9 }]).2 = false ∧
    (assignCluster 50 [{ faceId := 1, fileHash := "h1", personId := some 7 },
        { faceId := 2, fileHash := "h1", personId := none },
        { faceId := 3, fileHash := "h2", personId := some 7 },
        { faceId := 4, fileHash := "h2", personId := some 9 }]).1 = 7 ∧
    5 ∉ clusteredIds (buildClusterMap [(5, -1), (6, 0)]) := by
  have h := c6_face_clustering
  have h5 := h.2.2.2.2 50
    [{ faceId := 1, fileHash := "h1", personId := some 7 },
     { faceId := 2, fileHash := "h1", personId := none },
     { faceId := 3, fileHash := "h2", personId := some 7 },
     { faceId := 4, fileHash := "h2", personId := some 9 }] (by decide)
  refine ⟨h5.1, by decide, ?_⟩
  refine h.2.2.1 [(5, -1), (6, 0)] 5 ?_
  intro l hl
  simpa using hl

end Recasa
